import Mathlib

/-!
Verification of the nightshade-template plugin runtime (`src/plugin_runtime.rs`
and `plugins/shared/src/lib.rs`) against its natural-language specification.

The Rust code is shallowly embedded: `HashMap`s become association lists with
replace-on-insert semantics, machine integers become `Nat`, `f32` payloads
become either their 32-bit little-endian bit patterns (for the wire codec) or
exact rationals (for transform arithmetic), and the filesystem is an abstract
`canonicalize` oracle.
-/

namespace Nightshade

/-! ## Association lists (model of `std::collections::HashMap`) -/

def afind {α β : Type} [DecidableEq α] (k : α) : List (α × β) → Option β
  | [] => none
  | (k', v) :: l => if k' = k then some v else afind k l

def aerase {α β : Type} [DecidableEq α] (k : α) : List (α × β) → List (α × β)
  | [] => []
  | p :: l => if p.1 = k then aerase k l else p :: aerase k l

/-- `HashMap::insert` replaces any existing binding of the key. -/
def ainsert {α β : Type} [DecidableEq α] (k : α) (v : β) (l : List (α × β)) : List (α × β) :=
  (k, v) :: aerase k l

def keysNodup {α β : Type} (l : List (α × β)) : Prop :=
  (l.map Prod.fst).Nodup

/-! ## Path model and `sanitize_path` -/

/-- One `std::path::Component` of a path. -/
inductive PathComponent : Type
  | rootDir
  | curDir
  | parentDir
  | pfxDrive
  | normal (s : String)
deriving DecidableEq, Repr

/-- A path, as its list of components. -/
structure RPath : Type where
  components : List PathComponent
deriving DecidableEq, Repr

/-- `Path::is_absolute`: the path begins with a root or a platform prefix. -/
def RPath.is_absolute (p : RPath) : Bool :=
  match p.components with
  | PathComponent.rootDir :: _ => true
  | PathComponent.pfxDrive :: _ => true
  | _ => false

/-- A component rejected by the sanitizer's loop:
`ParentDir`, `Prefix(_)` or `RootDir`. -/
def bad_component : PathComponent → Bool
  | .parentDir => true
  | .pfxDrive => true
  | .rootDir => true
  | _ => false

/-- `PathBuf::join` with the argument known relative: append the components. -/
def RPath.join (base p : RPath) : RPath :=
  if p.is_absolute then p else ⟨base.components ++ p.components⟩

/-- `Path::starts_with`: component-wise prefix test. -/
def RPath.has_base (p base : RPath) : Bool :=
  base.components.isPrefixOf p.components

/-- Abstract filesystem: `std::fs::canonicalize`, `none` on error
(e.g. the path does not exist). -/
structure FileSys : Type where
  canonicalize : RPath → Option RPath

/-- The two base-path fields of `PluginRuntime`. -/
structure RuntimePaths : Type where
  plugins_base_path : RPath
  canonical_base_path : RPath

/-- `PluginRuntime::new`: the canonical base is `canonicalize(base)`,
falling back to `base` itself on error. -/
def RuntimePaths.new (fs : FileSys) (base : RPath) : RuntimePaths :=
  { plugins_base_path := base
    canonical_base_path := (fs.canonicalize base).getD base }

/-- `PluginRuntime::sanitize_path`, line for line. -/
def sanitize_path (fs : FileSys) (rt : RuntimePaths) (path : RPath) : Option RPath :=
  if path.is_absolute then none
  else if path.components.any bad_component then none
  else
    let full_path := rt.plugins_base_path.join path
    match fs.canonicalize full_path with
    | none => none
    | some canonical_full =>
      if !(canonical_full.has_base rt.canonical_base_path) then none
      else some canonical_full

/-! ## Engine events and commands (`nightshade::plugin`, the variants the
runtime uses) -/

abbrev PluginId := Nat
abbrev Entity := Nat

inductive EngineEvent : Type
  | FrameStart (delta_time : ℚ) (frame_count : Nat)
  | MouseMoved (x y : ℚ)
  | KeyPressed (key_code : Nat)
  | KeyReleased (key_code : Nat)
  | MouseButtonPressed (button : Nat)
  | MouseButtonReleased (button : Nat)
  | EntitySpawned (request_id entity_id : Nat)
  | EntityPosition (request_id entity_id : Nat) (x y z : ℚ)
  | EntityScale (request_id entity_id : Nat) (x y z : ℚ)
  | EntityRotation (request_id entity_id : Nat) (x y z w : ℚ)
  | EntityNotFound (request_id entity_id : Nat)
  | FileLoaded (request_id : Nat) (data : List Nat)
  | FileError (request_id : Nat) (error : String)
  | TextureLoaded (request_id texture_id : Nat)
  | AssetError (request_id : Nat) (error : String)
  | PrefabLoaded (request_id entity_id : Nat)
deriving DecidableEq

inductive Primitive : Type
  | Cube | Sphere | Cylinder | Plane | Cone
deriving DecidableEq

inductive EngineCommand : Type
  | Log (message : String)
  | SpawnPrimitive (primitive : Primitive) (x y z : ℚ) (request_id : Nat)
  | DespawnEntity (entity_id : Nat)
  | SetEntityPosition (entity_id : Nat) (x y z : ℚ)
  | SetEntityScale (entity_id : Nat) (x y z : ℚ)
  | SetEntityRotation (entity_id : Nat) (x y z w : ℚ)
  | GetEntityPosition (entity_id request_id : Nat)
  | GetEntityScale (entity_id request_id : Nat)
  | GetEntityRotation (entity_id request_id : Nat)
  | ReadFile (path : RPath) (request_id : Nat)
  | LoadTexture (path : RPath) (request_id : Nat)
  | LoadPrefab (path : RPath) (x y z : ℚ) (request_id : Nat)
  | SetEntityMaterial (entity_id texture_id : Nat)
deriving DecidableEq

/-! ## The `ReadFile` command arm -/

/-- Outcome of processing one `ReadFile` command: the unicast `(plugin, event)`
pairs it dispatches and the worker threads it spawns, each identified by the
sanitized path its closure captures. -/
structure ReadFileOutcome : Type where
  events : List (PluginId × EngineEvent)
  workers : List RPath
deriving DecidableEq

/-- The `EngineCommand::ReadFile` arm of `PluginRuntime::process_commands`. -/
def process_read_file (fs : FileSys) (rt : RuntimePaths) (plugin_id : PluginId)
    (path : RPath) (request_id : Nat) : ReadFileOutcome :=
  match sanitize_path fs rt path with
  | some safe_path => { events := [], workers := [safe_path] }
  | none =>
    { events := [(plugin_id, EngineEvent.FileError request_id "Invalid path: access denied")]
      workers := [] }

/-! ## The `LoadTexture` command arm and its async result -/

/-- A worker thread spawned by the `LoadTexture` arm, with the data its
closure captures. -/
structure TextureWorker : Type where
  plugin_id : PluginId
  request_id : Nat
  texture_name : RPath
  texture_id : Nat
  safe_path : RPath
deriving DecidableEq

structure LoadTextureOutcome : Type where
  events : List (PluginId × EngineEvent)
  workers : List TextureWorker
  next_texture_id : Nat
deriving DecidableEq

/-- The `EngineCommand::LoadTexture` arm of `process_commands`: on a sanitized
path the texture id is allocated synchronously (`generate_texture_id`) and
captured by the worker; on rejection a single `AssetError` is unicast. -/
def process_load_texture (fs : FileSys) (rt : RuntimePaths) (next_texture_id : Nat)
    (plugin_id : PluginId) (path : RPath) (request_id : Nat) : LoadTextureOutcome :=
  match sanitize_path fs rt path with
  | some safe_path =>
    { events := []
      workers := [{ plugin_id := plugin_id, request_id := request_id, texture_name := path,
                    texture_id := next_texture_id, safe_path := safe_path }]
      next_texture_id := next_texture_id + 1 }
  | none =>
    { events := [(plugin_id, EngineEvent.AssetError request_id "Invalid path: access denied")]
      workers := []
      next_texture_id := next_texture_id }

/-- `AsyncResult::Texture` as received on the channel: the worker's result is
either the RGBA payload `(data, width, height)` or an error string. -/
structure TextureResult : Type where
  plugin_id : PluginId
  request_id : Nat
  texture_name : RPath
  texture_id : Nat
  result : Except String (List Nat × Nat × Nat)

/-- Observable primitive actions of `process_async_results`, in program
order. -/
inductive TexAction : Type
  | queue_world_load_texture (name : RPath) (rgba : List Nat) (width height : Nat)
  | insert_texture_map (texture_id : Nat) (name : RPath)
  | dispatch (plugin_id : PluginId) (e : EngineEvent)
deriving DecidableEq

/-- The `AsyncResult::Texture` arm of `PluginRuntime::process_async_results`:
returns the updated `texture_id_to_name` map and the ordered action trace. -/
def process_texture_result (texture_id_to_name : List (Nat × RPath)) (r : TextureResult) :
    List (Nat × RPath) × List TexAction :=
  match r.result with
  | .ok (rgba_data, width, height) =>
    (ainsert r.texture_id r.texture_name texture_id_to_name,
     [.queue_world_load_texture r.texture_name rgba_data width height,
      .insert_texture_map r.texture_id r.texture_name,
      .dispatch r.plugin_id (.TextureLoaded r.request_id r.texture_id)])
  | .error error =>
    (texture_id_to_name, [.dispatch r.plugin_id (.AssetError r.request_id error)])

/-! ## Entity handle table -/

structure EntityTable : Type where
  entity_map : List (Nat × Entity)
  reverse_entity_map : List (Entity × Nat)
  next_entity_id : Nat
deriving DecidableEq

/-- The table of a fresh `PluginRuntime` (`new` sets `next_entity_id` to 1). -/
def EntityTable.empty : EntityTable := ⟨[], [], 1⟩

/-- `generate_entity_id`. -/
def generate_entity_id (t : EntityTable) : Nat × EntityTable :=
  (t.next_entity_id, { t with next_entity_id := t.next_entity_id + 1 })

/-- `register_entity`. -/
def register_entity (t : EntityTable) (entity : Entity) : Nat × EntityTable :=
  match afind entity t.reverse_entity_map with
  | some existing_id => (existing_id, t)
  | none =>
    let id_t := generate_entity_id t
    (id_t.1,
     { id_t.2 with
        entity_map := ainsert id_t.1 entity id_t.2.entity_map
        reverse_entity_map := ainsert entity id_t.1 id_t.2.reverse_entity_map })

/-- `get_entity`. -/
def get_entity (t : EntityTable) (plugin_entity_id : Nat) : Option Entity :=
  afind plugin_entity_id t.entity_map

/-- `unregister_entity`. -/
def unregister_entity (t : EntityTable) (plugin_entity_id : Nat) : EntityTable :=
  match afind plugin_entity_id t.entity_map with
  | some entity =>
    { t with
        entity_map := aerase plugin_entity_id t.entity_map
        reverse_entity_map := aerase entity t.reverse_entity_map }
  | none => t

def CLEANUP_INTERVAL_FRAMES : Nat := 60

/-- The purge portion of `cleanup_stale_entities`: collect the ids of the
forward-map entries whose entity fails `is_valid`, then unregister each. -/
def purge_stale (is_valid : Entity → Bool) (t : EntityTable) : EntityTable :=
  let stale_ids := (t.entity_map.filter (fun p => !is_valid p.2)).map Prod.fst
  stale_ids.foldl unregister_entity t

structure CleanupState : Type where
  table : EntityTable
  frames_since_cleanup : Nat
deriving DecidableEq

/-- `cleanup_stale_entities`, including the frame-counter gate. -/
def cleanup_stale_entities (is_valid : Entity → Bool) (s : CleanupState) : CleanupState :=
  let c := s.frames_since_cleanup + 1
  if c < CLEANUP_INTERVAL_FRAMES then { s with frames_since_cleanup := c }
  else { table := purge_stale is_valid s.table, frames_since_cleanup := 0 }

/-- `n` successive `run_frame` calls, projected onto the cleanup logic. -/
def cleanup_iter (is_valid : Entity → Bool) : Nat → CleanupState → CleanupState
  | 0, s => s
  | n + 1, s => cleanup_iter is_valid n (cleanup_stale_entities is_valid s)

/-- The call on state `s` takes the purge branch rather than the early
return. -/
def does_purge (s : CleanupState) : Prop :=
  CLEANUP_INTERVAL_FRAMES ≤ s.frames_since_cleanup + 1

/-! ## Traces of handle-table operations -/

inductive TableOp : Type
  | reg (entity : Entity)
  | unreg (plugin_entity_id : Nat)
  | gc (is_valid : Entity → Bool)

def table_step (t : EntityTable) : TableOp → EntityTable
  | .reg e => (register_entity t e).2
  | .unreg id => unregister_entity t id
  | .gc is_valid => purge_stale is_valid t

def apply_ops (t : EntityTable) : List TableOp → EntityTable
  | [] => t
  | op :: ops => apply_ops (table_step t op) ops

/-- The operation does not remove the binding `id ↦ e`. -/
def op_keeps (id : Nat) (e : Entity) : TableOp → Prop
  | .reg _ => True
  | .unreg id' => id' ≠ id
  | .gc is_valid => is_valid e = true

/-- Return values of all `register_entity` calls along the trace. -/
def reg_returns (t : EntityTable) : List TableOp → List Nat
  | [] => []
  | .reg e :: ops => (register_entity t e).1 :: reg_returns (table_step t (.reg e)) ops
  | op :: ops => reg_returns (table_step t op) ops

/-- Ids freshly minted by `generate_entity_id` along the trace (the register
calls whose reverse-map probe missed). -/
def fresh_ids (t : EntityTable) : List TableOp → List Nat
  | [] => []
  | .reg e :: ops =>
    match afind e t.reverse_entity_map with
    | some _ => fresh_ids (table_step t (.reg e)) ops
    | none => t.next_entity_id :: fresh_ids (table_step t (.reg e)) ops
  | op :: ops => fresh_ids (table_step t op) ops

/-- Well-formedness of the handle table, as maintained by `PluginRuntime`:
keys are unique, every stored id is below the allocation cursor, and the two
maps are mutually inverse. -/
def TableInv (t : EntityTable) : Prop :=
  keysNodup t.entity_map ∧ keysNodup t.reverse_entity_map ∧
  (∀ p ∈ t.entity_map, p.1 < t.next_entity_id) ∧
  (∀ q ∈ t.reverse_entity_map, q.2 < t.next_entity_id) ∧
  (∀ p ∈ t.entity_map, afind p.2 t.reverse_entity_map = some p.1) ∧
  (∀ q ∈ t.reverse_entity_map, afind q.2 t.entity_map = some q.1)

instance (t : EntityTable) : Decidable (TableInv t) := by
  unfold TableInv keysNodup; infer_instance

/-! ## Frame loop model -/

/-- Model of one `PluginInstance` for frame sequencing: whether the lifecycle
exports exist, whether each call traps (`Err`), and the commands the guest
pushes into `pending_commands` during the call (before any trap). -/
structure PluginM : Type where
  id : PluginId
  has_on_init : Bool
  init_trap : Option String
  init_emitted : List EngineCommand
  has_on_frame : Bool
  frame_trap : Option String
  frame_emitted : List EngineCommand
deriving DecidableEq

inductive FrameAction : Type
  | dispatch (plugin_id : PluginId) (e : EngineEvent)
  | call_on_frame (plugin_id : PluginId)
  | log_error (plugin_id : PluginId) (error : String)
  | process (plugin_id : PluginId) (c : EngineCommand)
deriving DecidableEq

def FrameAction.is_dispatch : FrameAction → Bool
  | .dispatch _ _ => true
  | _ => false

def FrameAction.is_call_phase : FrameAction → Bool
  | .call_on_frame _ => true
  | .log_error _ _ => true
  | _ => false

def FrameAction.is_process : FrameAction → Bool
  | .process _ _ => true
  | _ => false

/-- `collect_frame_commands`: iterate plugins in vector order; for each one
with an `on_frame` export, call it (logging a trap) and drain its pending
command buffer regardless of the call result. Returns the collected
`(plugin_id, command)` list and the call/log actions in order. -/
def collect_frame_commands : List PluginM → List (PluginId × EngineCommand) × List FrameAction
  | [] => ([], [])
  | p :: rest =>
    let acc := collect_frame_commands rest
    if p.has_on_frame then
      (p.frame_emitted.map (fun c => (p.id, c)) ++ acc.1,
       (FrameAction.call_on_frame p.id ::
         (match p.frame_trap with
          | some error => [FrameAction.log_error p.id error]
          | none => [])) ++ acc.2)
    else acc

/-- `collect_init_commands`: same drain-even-on-trap shape for `on_init`. -/
def collect_init_commands : List PluginM → List (PluginId × EngineCommand)
  | [] => []
  | p :: rest =>
    (if p.has_on_init then p.init_emitted.map (fun c => (p.id, c)) else []) ++
      collect_init_commands rest

/-- `dispatch_event_to_all`: broadcast to every loaded plugin, in order. -/
def dispatch_event_to_all (plugins : List PluginM) (e : EngineEvent) : List FrameAction :=
  plugins.map (fun p => FrameAction.dispatch p.id e)

/-- The per-frame inputs of `run_frame` that are external to the plugin list:
the unicast dispatches produced by draining the async channel, the queued
input events, the timing resource, and the two mouse positions compared. -/
structure FrameInput : Type where
  async_event_dispatches : List (PluginId × EngineEvent)
  pending_input_events : List EngineEvent
  delta_time : ℚ
  frame_count : Nat
  mouse_position : ℚ × ℚ
  last_mouse_position : ℚ × ℚ

/-- The event-dispatch prefix of `run_frame`, in program order: async-result
dispatches, queued input events (each broadcast), the `FrameStart` broadcast,
and a `MouseMoved` broadcast when the mouse position changed. -/
def frame_event_actions (plugins : List PluginM) (fi : FrameInput) : List FrameAction :=
  (fi.async_event_dispatches.map fun pe => FrameAction.dispatch pe.1 pe.2) ++
  (fi.pending_input_events.map (dispatch_event_to_all plugins)).flatten ++
  dispatch_event_to_all plugins (.FrameStart fi.delta_time fi.frame_count) ++
  (if fi.mouse_position ≠ fi.last_mouse_position then
      dispatch_event_to_all plugins (.MouseMoved fi.mouse_position.1 fi.mouse_position.2)
    else [])

/-- The observable action sequence of `run_frame`, in program order: the event
dispatches, then the `on_frame` calls, then processing of every collected
command. -/
def run_frame_trace (plugins : List PluginM) (fi : FrameInput) : List FrameAction :=
  frame_event_actions plugins fi ++
  (collect_frame_commands plugins).2 ++
  ((collect_frame_commands plugins).1.map fun pc => FrameAction.process pc.1 pc.2)

/-- `call_on_init`: process every collected init command. -/
def call_on_init_trace (plugins : List PluginM) : List FrameAction :=
  (collect_init_commands plugins).map fun pc => FrameAction.process pc.1 pc.2

/-! ## Transforms and `SetEntityRotation` -/

/-- nalgebra's `Quaternion` with exact rational components. `Quat::new` takes
the scalar `w` first and stores the four components verbatim. -/
structure Quat : Type where
  w : ℚ
  i : ℚ
  j : ℚ
  k : ℚ
deriving DecidableEq

def Quat.new (w x y z : ℚ) : Quat := ⟨w, x, y, z⟩

def Quat.normSq (q : Quat) : ℚ := q.w ^ 2 + q.i ^ 2 + q.j ^ 2 + q.k ^ 2

structure Transform3D : Type where
  translation : ℚ × ℚ × ℚ
  rotation : Quat
  scale : ℚ × ℚ × ℚ
deriving DecidableEq

/-- The `EngineCommand::SetEntityRotation` arm of `process_commands`: look up
the entity and, when it has a local transform, overwrite the rotation with
`Quat::new(w, x, y, z)`. The world is its map from entities to local
transforms. -/
def set_entity_rotation (world : List (Entity × Transform3D)) (t : EntityTable)
    (entity_id : Nat) (x y z w : ℚ) : List (Entity × Transform3D) :=
  match get_entity t entity_id with
  | some entity =>
    match afind entity world with
    | some transform => ainsert entity { transform with rotation := Quat.new w x y z } world
    | none => world
  | none => world

/-! ## postcard wire codec for `GameCommand` / `GameEvent`
(`plugins/shared/src/lib.rs`) -/

/-- postcard's unsigned varint (LEB128): 7 data bits per byte, low group
first, high bit set on every byte but the last. -/
def varint_encode (n : Nat) : List Nat :=
  if n < 128 then [n]
  else (n % 128 + 128) :: varint_encode (n / 128)
decreasing_by exact Nat.div_lt_self (by omega) (by omega)

def varint_decode : List Nat → Option (Nat × List Nat)
  | [] => none
  | b :: rest =>
    if b < 128 then some (b, rest)
    else
      match varint_decode rest with
      | some (n, r) => some (n * 128 + (b - 128), r)
      | none => none

/-- An `f32` on the wire: postcard stores its four little-endian bytes. The
value is modelled by its 32-bit pattern. -/
def f32_encode (bits : Nat) : List Nat :=
  [bits % 256, bits / 256 % 256, bits / 65536 % 256, bits / 16777216 % 256]

def f32_decode : List Nat → Option (Nat × List Nat)
  | b0 :: b1 :: b2 :: b3 :: rest => some (b0 + 256 * b1 + 65536 * b2 + 16777216 * b3, rest)
  | _ => none

/-- A Rust `String` on the wire: varint byte length, then the UTF-8 bytes. -/
def string_encode (bytes : List Nat) : List Nat :=
  varint_encode bytes.length ++ bytes

def string_decode (l : List Nat) : Option (List Nat × List Nat) :=
  match varint_decode l with
  | some (n, r) => if n ≤ r.length then some (r.take n, r.drop n) else none
  | none => none

inductive EnemyType : Type
  | Slime | Skeleton | Dragon
deriving DecidableEq

inductive ItemType : Type
  | HealthPotion | ManaPotion | Sword | Shield
deriving DecidableEq

def EnemyType.tag : EnemyType → Nat
  | .Slime => 0
  | .Skeleton => 1
  | .Dragon => 2

def ItemType.tag : ItemType → Nat
  | .HealthPotion => 0
  | .ManaPotion => 1
  | .Sword => 2
  | .Shield => 3

def EnemyType.to_bytes (t : EnemyType) : List Nat := varint_encode t.tag

def ItemType.to_bytes (t : ItemType) : List Nat := varint_encode t.tag

def enemy_type_decode (l : List Nat) : Option (EnemyType × List Nat) :=
  match varint_decode l with
  | some (0, r) => some (.Slime, r)
  | some (1, r) => some (.Skeleton, r)
  | some (2, r) => some (.Dragon, r)
  | _ => none

def item_type_decode (l : List Nat) : Option (ItemType × List Nat) :=
  match varint_decode l with
  | some (0, r) => some (.HealthPotion, r)
  | some (1, r) => some (.ManaPotion, r)
  | some (2, r) => some (.Sword, r)
  | some (3, r) => some (.Shield, r)
  | _ => none

/-- `GameCommand`; `f32` fields carry their 32-bit patterns, strings their
UTF-8 bytes. -/
inductive GameCommand : Type
  | SpawnEnemy (enemy_type : EnemyType) (x y z : Nat) (request_id : Nat)
  | DespawnEnemy (enemy_id : Nat)
  | DamageEnemy (enemy_id : Nat) (damage : Nat)
  | SpawnItem (item_type : ItemType) (x y z : Nat) (request_id : Nat)
  | GivePlayerItem (item_type : ItemType)
  | SetPlayerHealth (health : Nat)
  | SetPlayerScore (score : Nat)
  | TriggerGameEvent (event_name : List Nat)
deriving DecidableEq

inductive GameEvent : Type
  | EnemySpawned (request_id enemy_id : Nat) (enemy_type : EnemyType)
  | EnemyDied (enemy_id : Nat) (enemy_type : EnemyType)
  | EnemyDamaged (enemy_id : Nat) (remaining_health : Nat)
  | ItemSpawned (request_id item_id : Nat) (item_type : ItemType)
  | ItemCollected (item_id : Nat) (item_type : ItemType)
  | PlayerHealthChanged (health max_health : Nat)
  | PlayerScoreChanged (score : Nat)
  | PlayerDied
  | GameEventTriggered (event_name : List Nat)
  | WaveStarted (wave_number : Nat)
  | WaveCompleted (wave_number : Nat)
deriving DecidableEq

/-- `GameCommand::to_bytes` = `postcard::to_allocvec`: varint variant tag,
then the fields in declaration order. -/
def GameCommand.to_bytes : GameCommand → List Nat
  | .SpawnEnemy et x y z rid =>
    varint_encode 0 ++ et.to_bytes ++ f32_encode x ++ f32_encode y ++ f32_encode z ++
      varint_encode rid
  | .DespawnEnemy id => varint_encode 1 ++ varint_encode id
  | .DamageEnemy id dmg => varint_encode 2 ++ varint_encode id ++ varint_encode dmg
  | .SpawnItem it x y z rid =>
    varint_encode 3 ++ it.to_bytes ++ f32_encode x ++ f32_encode y ++ f32_encode z ++
      varint_encode rid
  | .GivePlayerItem it => varint_encode 4 ++ it.to_bytes
  | .SetPlayerHealth h => varint_encode 5 ++ varint_encode h
  | .SetPlayerScore s => varint_encode 6 ++ varint_encode s
  | .TriggerGameEvent name => varint_encode 7 ++ string_encode name

/-- `GameCommand::from_bytes` = `postcard::from_bytes(..).ok()`. -/
def GameCommand.from_bytes (l : List Nat) : Option GameCommand :=
  (varint_decode l).bind fun tr =>
    match tr with
    | (0, r) =>
      (enemy_type_decode r).bind fun etr =>
      (f32_decode etr.2).bind fun xr =>
      (f32_decode xr.2).bind fun yr =>
      (f32_decode yr.2).bind fun zr =>
      (varint_decode zr.2).bind fun rr =>
      some (.SpawnEnemy etr.1 xr.1 yr.1 zr.1 rr.1)
    | (1, r) => (varint_decode r).bind fun ir => some (.DespawnEnemy ir.1)
    | (2, r) =>
      (varint_decode r).bind fun ir =>
      (varint_decode ir.2).bind fun dr =>
      some (.DamageEnemy ir.1 dr.1)
    | (3, r) =>
      (item_type_decode r).bind fun itr =>
      (f32_decode itr.2).bind fun xr =>
      (f32_decode xr.2).bind fun yr =>
      (f32_decode yr.2).bind fun zr =>
      (varint_decode zr.2).bind fun rr =>
      some (.SpawnItem itr.1 xr.1 yr.1 zr.1 rr.1)
    | (4, r) => (item_type_decode r).bind fun itr => some (.GivePlayerItem itr.1)
    | (5, r) => (varint_decode r).bind fun hr => some (.SetPlayerHealth hr.1)
    | (6, r) => (varint_decode r).bind fun sr => some (.SetPlayerScore sr.1)
    | (7, r) => (string_decode r).bind fun nr => some (.TriggerGameEvent nr.1)
    | _ => none

/-- `GameEvent::to_bytes`. -/
def GameEvent.to_bytes : GameEvent → List Nat
  | .EnemySpawned rid eid et => varint_encode 0 ++ varint_encode rid ++ varint_encode eid ++
      et.to_bytes
  | .EnemyDied eid et => varint_encode 1 ++ varint_encode eid ++ et.to_bytes
  | .EnemyDamaged eid hp => varint_encode 2 ++ varint_encode eid ++ varint_encode hp
  | .ItemSpawned rid iid it => varint_encode 3 ++ varint_encode rid ++ varint_encode iid ++
      it.to_bytes
  | .ItemCollected iid it => varint_encode 4 ++ varint_encode iid ++ it.to_bytes
  | .PlayerHealthChanged h mh => varint_encode 5 ++ varint_encode h ++ varint_encode mh
  | .PlayerScoreChanged s => varint_encode 6 ++ varint_encode s
  | .PlayerDied => varint_encode 7
  | .GameEventTriggered name => varint_encode 8 ++ string_encode name
  | .WaveStarted w => varint_encode 9 ++ varint_encode w
  | .WaveCompleted w => varint_encode 10 ++ varint_encode w

/-- `GameEvent::from_bytes`. -/
def GameEvent.from_bytes (l : List Nat) : Option GameEvent :=
  (varint_decode l).bind fun tr =>
    match tr with
    | (0, r) =>
      (varint_decode r).bind fun rr =>
      (varint_decode rr.2).bind fun er =>
      (enemy_type_decode er.2).bind fun etr =>
      some (.EnemySpawned rr.1 er.1 etr.1)
    | (1, r) =>
      (varint_decode r).bind fun er =>
      (enemy_type_decode er.2).bind fun etr =>
      some (.EnemyDied er.1 etr.1)
    | (2, r) =>
      (varint_decode r).bind fun er =>
      (varint_decode er.2).bind fun hr =>
      some (.EnemyDamaged er.1 hr.1)
    | (3, r) =>
      (varint_decode r).bind fun rr =>
      (varint_decode rr.2).bind fun ir =>
      (item_type_decode ir.2).bind fun itr =>
      some (.ItemSpawned rr.1 ir.1 itr.1)
    | (4, r) =>
      (varint_decode r).bind fun ir =>
      (item_type_decode ir.2).bind fun itr =>
      some (.ItemCollected ir.1 itr.1)
    | (5, r) =>
      (varint_decode r).bind fun hr =>
      (varint_decode hr.2).bind fun mr =>
      some (.PlayerHealthChanged hr.1 mr.1)
    | (6, r) => (varint_decode r).bind fun sr => some (.PlayerScoreChanged sr.1)
    | (7, _) => some .PlayerDied
    | (8, r) => (string_decode r).bind fun nr => some (.GameEventTriggered nr.1)
    | (9, r) => (varint_decode r).bind fun wr => some (.WaveStarted wr.1)
    | (10, r) => (varint_decode r).bind fun wr => some (.WaveCompleted wr.1)
    | _ => none

/-- A valid `GameCommand`: every field is within its Rust machine-type range
(`f32` patterns and `u32` below `2^32`, `u64` below `2^64`, string bytes
below 256). -/
def GameCommand.wf : GameCommand → Prop
  | .SpawnEnemy _ x y z rid => x < 2 ^ 32 ∧ y < 2 ^ 32 ∧ z < 2 ^ 32 ∧ rid < 2 ^ 64
  | .DespawnEnemy id => id < 2 ^ 64
  | .DamageEnemy id dmg => id < 2 ^ 64 ∧ dmg < 2 ^ 32
  | .SpawnItem _ x y z rid => x < 2 ^ 32 ∧ y < 2 ^ 32 ∧ z < 2 ^ 32 ∧ rid < 2 ^ 64
  | .GivePlayerItem _ => True
  | .SetPlayerHealth h => h < 2 ^ 32
  | .SetPlayerScore s => s < 2 ^ 64
  | .TriggerGameEvent name => ∀ b ∈ name, b < 256

/-- A valid `GameEvent`. -/
def GameEvent.wf : GameEvent → Prop
  | .EnemySpawned rid eid _ => rid < 2 ^ 64 ∧ eid < 2 ^ 64
  | .EnemyDied eid _ => eid < 2 ^ 64
  | .EnemyDamaged eid hp => eid < 2 ^ 64 ∧ hp < 2 ^ 32
  | .ItemSpawned rid iid _ => rid < 2 ^ 64 ∧ iid < 2 ^ 64
  | .ItemCollected iid _ => iid < 2 ^ 64
  | .PlayerHealthChanged h mh => h < 2 ^ 32 ∧ mh < 2 ^ 32
  | .PlayerScoreChanged s => s < 2 ^ 64
  | .PlayerDied => True
  | .GameEventTriggered name => ∀ b ∈ name, b < 256
  | .WaveStarted w => w < 2 ^ 32
  | .WaveCompleted w => w < 2 ^ 32

/-! ## Concrete fixtures for evaluation -/

/-- The canonical plugins directory of the demo filesystem. -/
def demoBase : RPath := ⟨[.rootDir, .normal "app", .normal "plugins"]⟩

def demoLogoRel : RPath := ⟨[.normal "logo.png"]⟩

def demoLogoAbs : RPath := ⟨[.rootDir, .normal "app", .normal "plugins", .normal "logo.png"]⟩

/-- A small filesystem oracle: the plugins directory and `plugins/logo.png`
resolve, everything else fails to canonicalize. -/
def demoFS : FileSys :=
  ⟨fun p =>
    if p = demoBase then some demoBase
    else if p = ⟨demoBase.components ++ demoLogoRel.components⟩ then some demoLogoAbs
    else none⟩

def demoRT : RuntimePaths := RuntimePaths.new demoFS demoBase

/-- A table holding one live handle: id 1 ↦ host entity 10. -/
def demoTable : EntityTable := (register_entity EntityTable.empty 10).2

def demoTransform : Transform3D :=
  { translation := (0, 0, 0), rotation := ⟨1, 0, 0, 0⟩, scale := (1, 1, 1) }

def demoWorld : List (Entity × Transform3D) := [(10, demoTransform)]

/-- `demoTable` after its only handle has been unregistered. -/
def demoTableUnreg : EntityTable := unregister_entity demoTable 1

/-- A cleanup state one call away from the purge, with two live handles. -/
def demoCleanup : CleanupState :=
  { table := ⟨[(1, 5), (2, 9)], [(5, 1), (9, 2)], 3⟩, frames_since_cleanup := 59 }

/-- Validity predicate under which entity 5 survives and entity 9 is stale. -/
def demoValid : Entity → Bool := fun e => decide (e ≤ 6)

/-- A successfully decoded 1×1 RGBA texture result for the pre-allocated
texture id 1. -/
def demoTexResultOk : TextureResult :=
  { plugin_id := 1, request_id := 42, texture_name := demoLogoRel, texture_id := 1,
    result := Except.ok ([0, 0, 0, 255], 1, 1) }

/-- A failed texture decode for the pre-allocated texture id 2. -/
def demoTexResultErr : TextureResult :=
  { plugin_id := 1, request_id := 43, texture_name := demoLogoRel, texture_id := 2,
    result := Except.error "Failed to decode image: bad header" }

/-- A plugin whose lifecycle calls trap after pushing one command each. -/
def demoTrapPlugin : PluginM :=
  { id := 1, has_on_init := true, init_trap := some "wasm trap: unreachable"
    init_emitted := [EngineCommand.Log "hello"]
    has_on_frame := true, frame_trap := some "wasm trap: unreachable"
    frame_emitted := [EngineCommand.DespawnEntity 1] }

def demoPlugin1 : PluginM :=
  { id := 1, has_on_init := true, init_trap := none, init_emitted := []
    has_on_frame := true, frame_trap := none
    frame_emitted := [EngineCommand.Log "a", EngineCommand.Log "b"] }

def demoPlugin2 : PluginM :=
  { id := 2, has_on_init := false, init_trap := none, init_emitted := []
    has_on_frame := true, frame_trap := some "wasm trap: unreachable"
    frame_emitted := [EngineCommand.Log "c"] }

def demoFrameInput : FrameInput :=
  { async_event_dispatches := [(1, EngineEvent.FileLoaded 7 [1, 2])]
    pending_input_events := [EngineEvent.KeyPressed 10]
    delta_time := 1 / 60, frame_count := 5
    mouse_position := (3, 4), last_mouse_position := (0, 0) }

/-! ## Association-list lemmas -/

theorem afind_aerase_self {α β : Type} [DecidableEq α] (k : α) (l : List (α × β)) :
    afind k (aerase k l) = none := by
  induction l with
  | nil => rfl
  | cons p l ih =>
    by_cases h : p.1 = k
    · simpa [aerase, h] using ih
    · simpa [aerase, afind, h] using ih

theorem afind_aerase_ne {α β : Type} [DecidableEq α] {k k' : α} (l : List (α × β))
    (h : k ≠ k') : afind k' (aerase k l) = afind k' l := by
  induction l with
  | nil => rfl
  | cons p l ih =>
    by_cases hp : p.1 = k
    · have hpk : p.1 ≠ k' := fun hc => h (hp ▸ hc)
      simp only [aerase, if_pos hp, afind, if_neg hpk]
      exact ih
    · by_cases hk' : p.1 = k'
      · simp only [aerase, if_neg hp, afind, if_pos hk']
      · simp only [aerase, if_neg hp, afind, if_neg hk']
        exact ih

theorem afind_ainsert_self {α β : Type} [DecidableEq α] (k : α) (v : β) (l : List (α × β)) :
    afind k (ainsert k v l) = some v := by
  simp [ainsert, afind]

theorem afind_ainsert_ne {α β : Type} [DecidableEq α] {k k' : α} (v : β) (l : List (α × β))
    (h : k ≠ k') : afind k' (ainsert k v l) = afind k' l := by
  simp only [ainsert, afind, if_neg h]
  exact afind_aerase_ne l h

theorem afind_mem {α β : Type} [DecidableEq α] {k : α} {v : β} {l : List (α × β)}
    (h : afind k l = some v) : (k, v) ∈ l := by
  induction l with
  | nil => simp [afind] at h
  | cons p l ih =>
    obtain ⟨a, b⟩ := p
    by_cases hp : a = k
    · subst hp
      simp only [afind, if_pos, Option.some.injEq] at h
      subst h
      exact List.mem_cons_self _ _
    · simp only [afind, if_neg hp] at h
      exact List.mem_cons_of_mem _ (ih h)

theorem mem_afind {α β : Type} [DecidableEq α] {k : α} {v : β} {l : List (α × β)}
    (hnd : keysNodup l) (h : (k, v) ∈ l) : afind k l = some v := by
  induction l with
  | nil => simp at h
  | cons p l ih =>
    simp only [keysNodup, List.map_cons, List.nodup_cons] at hnd
    rcases List.mem_cons.mp h with h | h
    · subst h; simp [afind]
    · have hk : p.1 ≠ k := by
        intro hk
        exact hnd.1 (hk ▸ (List.mem_map.mpr ⟨(k, v), h, rfl⟩))
      simp only [afind, if_neg hk]
      exact ih hnd.2 h

theorem mem_aerase {α β : Type} [DecidableEq α] {k : α} {p : α × β} {l : List (α × β)} :
    p ∈ aerase k l ↔ p ∈ l ∧ p.1 ≠ k := by
  induction l with
  | nil => simp [aerase]
  | cons q l ih =>
    by_cases hq : q.1 = k
    · rw [aerase, if_pos hq, ih]
      constructor
      · rintro ⟨hm, hne⟩; exact ⟨List.mem_cons_of_mem _ hm, hne⟩
      · rintro ⟨hm, hne⟩
        rcases List.mem_cons.mp hm with h | h
        · exact absurd (h ▸ hq) hne
        · exact ⟨h, hne⟩
    · rw [aerase, if_neg hq]
      constructor
      · intro hm
        rcases List.mem_cons.mp hm with h | h
        · exact ⟨h ▸ List.mem_cons_self q l, h ▸ hq⟩
        · exact ⟨List.mem_cons_of_mem _ (ih.mp h).1, (ih.mp h).2⟩
      · rintro ⟨hm, hne⟩
        rcases List.mem_cons.mp hm with h | h
        · exact h ▸ List.mem_cons_self q (aerase k l)
        · exact List.mem_cons_of_mem _ (ih.mpr ⟨h, hne⟩)

theorem aerase_sublist {α β : Type} [DecidableEq α] (k : α) (l : List (α × β)) :
    (aerase k l).Sublist l := by
  induction l with
  | nil => simp [aerase]
  | cons p l ih =>
    by_cases hp : p.1 = k
    · rw [aerase, if_pos hp]; exact ih.cons p
    · rw [aerase, if_neg hp]; exact ih.cons₂ p

theorem keysNodup_aerase {α β : Type} [DecidableEq α] (k : α) {l : List (α × β)}
    (h : keysNodup l) : keysNodup (aerase k l) :=
  h.sublist ((aerase_sublist k l).map Prod.fst)

theorem keysNodup_ainsert {α β : Type} [DecidableEq α] (k : α) (v : β) {l : List (α × β)}
    (h : keysNodup l) : keysNodup (ainsert k v l) := by
  unfold keysNodup ainsert
  simp only [List.map_cons, List.nodup_cons]
  constructor
  · intro hmem
    rcases List.mem_map.mp hmem with ⟨p, hp, hpk⟩
    exact (mem_aerase.mp hp).2 hpk
  · exact keysNodup_aerase k h

theorem afind_aerase_some {α β : Type} [DecidableEq α] {k k' : α} {v : β} {l : List (α × β)}
    (h : afind k' (aerase k l) = some v) : afind k' l = some v := by
  by_cases hk : k = k'
  · subst hk; rw [afind_aerase_self] at h; exact absurd h (by simp)
  · rwa [afind_aerase_ne l hk] at h

/-! ## Entity-table lemmas -/

theorem get_entity_unregister (t : EntityTable) (id k : Nat) :
    get_entity (unregister_entity t id) k = if k = id then none else get_entity t k := by
  unfold unregister_entity get_entity
  cases h : afind id t.entity_map with
  | some e =>
    by_cases hk : k = id
    · subst hk
      simp [afind_aerase_self]
    · simp only [hk, if_false]
      exact afind_aerase_ne _ (fun hc => hk hc.symm)
  | none =>
    by_cases hk : k = id
    · subst hk
      simp [h]
    · simp [hk]

theorem get_entity_fold_unregister (ids : List Nat) (t : EntityTable) (k : Nat) :
    get_entity (ids.foldl unregister_entity t) k =
      if k ∈ ids then none else get_entity t k := by
  induction ids generalizing t with
  | nil => simp
  | cons id ids ih =>
    rw [List.foldl_cons, ih, get_entity_unregister]
    by_cases h1 : k ∈ ids
    · simp [h1]
    · by_cases h2 : k = id
      · simp [h1, h2]
      · simp [h1, h2]

theorem get_entity_purge_stale (is_valid : Entity → Bool) (t : EntityTable)
    (hnd : keysNodup t.entity_map) (k : Nat) (e : Entity) :
    get_entity (purge_stale is_valid t) k = some e ↔
      get_entity t k = some e ∧ is_valid e = true := by
  unfold purge_stale
  rw [get_entity_fold_unregister]
  by_cases hk : k ∈ (t.entity_map.filter (fun p => !is_valid p.2)).map Prod.fst
  · simp only [hk, if_true]
    constructor
    · intro h
      exact absurd h (by simp)
    · rintro ⟨hg, hv⟩
      rcases List.mem_map.mp hk with ⟨p, hp, hpk⟩
      rcases List.mem_filter.mp hp with ⟨hpm, hpv⟩
      have hkp : (k, p.2) = p := by
        obtain ⟨a, b⟩ := p
        simp only at hpk
        rw [hpk]
      have hfind : afind k t.entity_map = some p.2 := mem_afind hnd (hkp ▸ hpm)
      rw [show get_entity t k = afind k t.entity_map from rfl, hfind] at hg
      obtain rfl : p.2 = e := by injection hg
      rw [hv] at hpv
      simp at hpv
  · simp only [hk, if_false]
    constructor
    · intro h
      refine ⟨h, ?_⟩
      cases hv : is_valid e with
      | true => rfl
      | false =>
        exfalso
        apply hk
        exact List.mem_map.mpr
          ⟨(k, e), List.mem_filter.mpr ⟨afind_mem h, by simp [hv]⟩, rfl⟩
    · exact fun hge => hge.1

theorem unregister_next (t : EntityTable) (id : Nat) :
    (unregister_entity t id).next_entity_id = t.next_entity_id := by
  unfold unregister_entity
  cases afind id t.entity_map <;> rfl

theorem fold_unregister_next (ids : List Nat) (t : EntityTable) :
    (ids.foldl unregister_entity t).next_entity_id = t.next_entity_id := by
  induction ids generalizing t with
  | nil => rfl
  | cons id ids ih => rw [List.foldl_cons, ih, unregister_next]

theorem purge_stale_next (is_valid : Entity → Bool) (t : EntityTable) :
    (purge_stale is_valid t).next_entity_id = t.next_entity_id :=
  fold_unregister_next _ _

theorem register_hit (t : EntityTable) (e : Entity) (id0 : Nat)
    (h : afind e t.reverse_entity_map = some id0) :
    register_entity t e = (id0, t) := by
  unfold register_entity
  rw [h]

theorem register_fresh_next (t : EntityTable) (e : Entity)
    (h : afind e t.reverse_entity_map = none) :
    (register_entity t e).2.next_entity_id = t.next_entity_id + 1 := by
  unfold register_entity
  rw [h]
  rfl

theorem step_next_le (t : EntityTable) (op : TableOp) :
    t.next_entity_id ≤ (table_step t op).next_entity_id := by
  cases op with
  | reg e =>
    simp only [table_step]
    cases h : afind e t.reverse_entity_map with
    | some id0 => rw [register_hit t e id0 h]
    | none => rw [register_fresh_next t e h]; omega
  | unreg id => simp only [table_step]; rw [unregister_next]
  | gc is_valid => simp only [table_step]; rw [purge_stale_next]

theorem rev_unregister_some {t : EntityTable} {i : Nat} {e : Entity} {id : Nat}
    (h : afind e (unregister_entity t i).reverse_entity_map = some id) :
    afind e t.reverse_entity_map = some id := by
  unfold unregister_entity at h
  cases hf : afind i t.entity_map with
  | some e0 =>
    rw [hf] at h
    exact afind_aerase_some h
  | none =>
    rw [hf] at h
    exact h

theorem rev_fold_unregister_some {ids : List Nat} {t : EntityTable} {e : Entity} {id : Nat}
    (h : afind e ((ids.foldl unregister_entity t).reverse_entity_map) = some id) :
    afind e t.reverse_entity_map = some id := by
  induction ids generalizing t with
  | nil => exact h
  | cons i ids ih =>
    rw [List.foldl_cons] at h
    exact rev_unregister_some (ih h)

theorem register_miss (t : EntityTable) (e : Entity)
    (h : afind e t.reverse_entity_map = none) :
    register_entity t e =
      (t.next_entity_id,
       { entity_map := ainsert t.next_entity_id e t.entity_map
         reverse_entity_map := ainsert e t.next_entity_id t.reverse_entity_map
         next_entity_id := t.next_entity_id + 1 }) := by
  unfold register_entity
  rw [h]
  rfl

theorem unregister_found (t : EntityTable) (id : Nat) (e0 : Entity)
    (h : afind id t.entity_map = some e0) :
    unregister_entity t id =
      { t with
          entity_map := aerase id t.entity_map
          reverse_entity_map := aerase e0 t.reverse_entity_map } := by
  unfold unregister_entity
  rw [h]

theorem unregister_missing (t : EntityTable) (id : Nat)
    (h : afind id t.entity_map = none) :
    unregister_entity t id = t := by
  unfold unregister_entity
  rw [h]

theorem tableInv_register (t : EntityTable) (e : Entity) (h : TableInv t) :
    TableInv (register_entity t e).2 := by
  obtain ⟨hnd1, hnd2, hb1, hb2, hc1, hc2⟩ := h
  cases hr : afind e t.reverse_entity_map with
  | some id0 =>
    rw [register_hit t e id0 hr]
    exact ⟨hnd1, hnd2, hb1, hb2, hc1, hc2⟩
  | none =>
    rw [register_miss t e hr]
    unfold TableInv
    dsimp only
    refine ⟨keysNodup_ainsert _ _ hnd1, keysNodup_ainsert _ _ hnd2, ?_, ?_, ?_, ?_⟩
    · intro p hp
      rcases List.mem_cons.mp hp with rfl | hp'
      · show t.next_entity_id < t.next_entity_id + 1
        omega
      · have := hb1 p (mem_aerase.mp hp').1
        omega
    · intro q hq
      rcases List.mem_cons.mp hq with rfl | hq'
      · show t.next_entity_id < t.next_entity_id + 1
        omega
      · have := hb2 q (mem_aerase.mp hq').1
        omega
    · intro p hp
      rcases List.mem_cons.mp hp with rfl | hp'
      · exact afind_ainsert_self _ _ _
      · obtain ⟨hpm, hpne⟩ := mem_aerase.mp hp'
        have hne : e ≠ p.2 := by
          intro hc
          have := hc1 p hpm
          rw [← hc, hr] at this
          exact absurd this (by simp)
        rw [afind_ainsert_ne _ _ hne]
        exact hc1 p hpm
    · intro q hq
      rcases List.mem_cons.mp hq with rfl | hq'
      · exact afind_ainsert_self _ _ _
      · obtain ⟨hqm, hqne⟩ := mem_aerase.mp hq'
        have hlt : q.2 < t.next_entity_id := hb2 q hqm
        rw [afind_ainsert_ne _ _ (by omega : t.next_entity_id ≠ q.2)]
        exact hc2 q hqm

theorem tableInv_unregister (t : EntityTable) (id : Nat) (h : TableInv t) :
    TableInv (unregister_entity t id) := by
  obtain ⟨hnd1, hnd2, hb1, hb2, hc1, hc2⟩ := h
  cases hf : afind id t.entity_map with
  | none =>
    rw [unregister_missing t id hf]
    exact ⟨hnd1, hnd2, hb1, hb2, hc1, hc2⟩
  | some e0 =>
    rw [unregister_found t id e0 hf]
    have hrev0 : afind e0 t.reverse_entity_map = some id := hc1 (id, e0) (afind_mem hf)
    refine ⟨keysNodup_aerase _ hnd1, keysNodup_aerase _ hnd2, ?_, ?_, ?_, ?_⟩
    · intro p hp
      exact hb1 p (mem_aerase.mp hp).1
    · intro q hq
      exact hb2 q (mem_aerase.mp hq).1
    · intro p hp
      obtain ⟨hpm, hpne⟩ := mem_aerase.mp hp
      have hne : e0 ≠ p.2 := by
        intro hc
        have hthis := hc1 p hpm
        rw [← hc, hrev0] at hthis
        exact hpne (by injection hthis with h2; exact h2.symm)
      rw [afind_aerase_ne _ hne]
      exact hc1 p hpm
    · intro q hq
      obtain ⟨hqm, hqne⟩ := mem_aerase.mp hq
      have hne : id ≠ q.2 := by
        intro hc
        have hthis := hc2 q hqm
        rw [← hc, hf] at hthis
        exact hqne (by injection hthis with h2; exact h2.symm)
      rw [afind_aerase_ne _ hne]
      exact hc2 q hqm

theorem tableInv_fold_unregister (ids : List Nat) (t : EntityTable) (h : TableInv t) :
    TableInv (ids.foldl unregister_entity t) := by
  induction ids generalizing t with
  | nil => exact h
  | cons id ids ih => exact ih _ (tableInv_unregister t id h)

theorem tableInv_purge (is_valid : Entity → Bool) (t : EntityTable) (h : TableInv t) :
    TableInv (purge_stale is_valid t) :=
  tableInv_fold_unregister _ _ h

theorem tableInv_step (t : EntityTable) (op : TableOp) (h : TableInv t) :
    TableInv (table_step t op) := by
  cases op with
  | reg e => exact tableInv_register t e h
  | unreg id => exact tableInv_unregister t id h
  | gc is_valid => exact tableInv_purge is_valid t h

theorem get_entity_step_keeps (t : EntityTable) (op : TableOp) (id : Nat) (e : Entity)
    (hInv : TableInv t) (hget : get_entity t id = some e) (hk : op_keeps id e op) :
    get_entity (table_step t op) id = some e := by
  cases op with
  | reg e' =>
    simp only [table_step]
    cases hr : afind e' t.reverse_entity_map with
    | some id0 =>
      rw [register_hit t e' id0 hr]
      exact hget
    | none =>
      rw [register_miss t e' hr]
      have hid : id < t.next_entity_id := hInv.2.2.1 (id, e) (afind_mem hget)
      show afind id (ainsert t.next_entity_id e' t.entity_map) = some e
      rw [afind_ainsert_ne _ _ (by omega : t.next_entity_id ≠ id)]
      exact hget
  | unreg id' =>
    simp only [table_step]
    rw [get_entity_unregister, if_neg (fun hc => hk hc.symm)]
    exact hget
  | gc is_valid =>
    simp only [table_step]
    exact (get_entity_purge_stale is_valid t hInv.1 id e).mpr ⟨hget, hk⟩

theorem get_entity_apply_ops (ops : List TableOp) (t : EntityTable) (id : Nat) (e : Entity)
    (hInv : TableInv t) (hget : get_entity t id = some e)
    (hkeep : ∀ op ∈ ops, op_keeps id e op) :
    get_entity (apply_ops t ops) id = some e := by
  induction ops generalizing t with
  | nil => exact hget
  | cons op ops ih =>
    exact ih (table_step t op) (tableInv_step t op hInv)
      (get_entity_step_keeps t op id e hInv hget (hkeep op (List.mem_cons_self _ _)))
      (fun op' h' => hkeep op' (List.mem_cons_of_mem _ h'))

theorem register_lookup (t : EntityTable) (e : Entity) (h : TableInv t) :
    get_entity (register_entity t e).2 (register_entity t e).1 = some e := by
  cases hr : afind e t.reverse_entity_map with
  | some id0 =>
    rw [register_hit t e id0 hr]
    exact h.2.2.2.2.2 (e, id0) (afind_mem hr)
  | none =>
    rw [register_miss t e hr]
    exact afind_ainsert_self _ _ _

theorem fresh_ids_lower (ops : List TableOp) (t : EntityTable) :
    ∀ x ∈ fresh_ids t ops, t.next_entity_id ≤ x := by
  induction ops generalizing t with
  | nil => simp [fresh_ids]
  | cons op ops ih =>
    cases op with
    | reg e =>
      intro x hx
      simp only [fresh_ids] at hx
      cases hr : afind e t.reverse_entity_map with
      | some id0 =>
        rw [hr] at hx
        have hstep : table_step t (TableOp.reg e) = t := by
          simp only [table_step]
          rw [register_hit t e id0 hr]
        rw [hstep] at hx
        exact ih t x hx
      | none =>
        rw [hr] at hx
        rcases List.mem_cons.mp hx with rfl | hx'
        · exact le_refl _
        · have hnext : (table_step t (TableOp.reg e)).next_entity_id = t.next_entity_id + 1 := by
            simp only [table_step]
            exact register_fresh_next t e hr
          have := ih (table_step t (TableOp.reg e)) x hx'
          omega
    | unreg i =>
      intro x hx
      simp only [fresh_ids] at hx
      have hle := ih (table_step t (TableOp.unreg i)) x hx
      have hn : (table_step t (TableOp.unreg i)).next_entity_id = t.next_entity_id := by
        simp only [table_step]
        exact unregister_next t i
      omega
    | gc v =>
      intro x hx
      simp only [fresh_ids] at hx
      have hle := ih (table_step t (TableOp.gc v)) x hx
      have hn : (table_step t (TableOp.gc v)).next_entity_id = t.next_entity_id := by
        simp only [table_step]
        exact purge_stale_next v t
      omega

theorem fresh_ids_pairwise (ops : List TableOp) (t : EntityTable) :
    (fresh_ids t ops).Pairwise (· < ·) := by
  induction ops generalizing t with
  | nil => simp [fresh_ids]
  | cons op ops ih =>
    cases op with
    | reg e =>
      simp only [fresh_ids]
      cases hr : afind e t.reverse_entity_map with
      | some id0 => exact ih _
      | none =>
        refine List.Pairwise.cons ?_ (ih _)
        intro x hx
        have hlow := fresh_ids_lower ops (table_step t (TableOp.reg e)) x hx
        have hnext : (table_step t (TableOp.reg e)).next_entity_id = t.next_entity_id + 1 := by
          simp only [table_step]
          exact register_fresh_next t e hr
        omega
    | unreg i =>
      simp only [fresh_ids]
      exact ih _
    | gc v =>
      simp only [fresh_ids]
      exact ih _

theorem unregistered_not_reissued (ops : List TableOp) (t : EntityTable) (id : Nat)
    (hlt : id < t.next_entity_id)
    (hout : ∀ e, afind e t.reverse_entity_map ≠ some id) :
    id ∉ reg_returns t ops := by
  induction ops generalizing t with
  | nil => simp [reg_returns]
  | cons op ops ih =>
    cases op with
    | reg e' =>
      simp only [reg_returns, List.mem_cons, not_or]
      constructor
      · cases hr : afind e' t.reverse_entity_map with
        | some id0 =>
          rw [register_hit t e' id0 hr]
          intro hc
          apply hout e'
          rw [hr, hc]
        | none =>
          rw [register_miss t e' hr]
          intro hc
          omega
      · cases hr : afind e' t.reverse_entity_map with
        | some id0 =>
          have hstep : table_step t (TableOp.reg e') = t := by
            simp only [table_step]
            rw [register_hit t e' id0 hr]
          rw [hstep]
          exact ih t hlt hout
        | none =>
          have hstep : table_step t (TableOp.reg e') =
              { entity_map := ainsert t.next_entity_id e' t.entity_map
                reverse_entity_map := ainsert e' t.next_entity_id t.reverse_entity_map
                next_entity_id := t.next_entity_id + 1 } := by
            simp only [table_step]
            rw [register_miss t e' hr]
          rw [hstep]
          apply ih
          · show id < t.next_entity_id + 1
            omega
          · intro e''
            by_cases he : e' = e''
            · subst he
              show afind e' (ainsert e' t.next_entity_id t.reverse_entity_map) ≠ some id
              rw [afind_ainsert_self]
              intro hc
              have : t.next_entity_id = id := by injection hc
              omega
            · show afind e'' (ainsert e' t.next_entity_id t.reverse_entity_map) ≠ some id
              rw [afind_ainsert_ne _ _ he]
              exact hout e''
    | unreg i =>
      simp only [reg_returns]
      apply ih
      · have hn : (table_step t (TableOp.unreg i)).next_entity_id = t.next_entity_id := by
          simp only [table_step]
          exact unregister_next t i
        omega
      · intro e'' hc
        apply hout e''
        apply rev_unregister_some (t := t) (i := i)
        simpa [table_step] using hc
    | gc v =>
      simp only [reg_returns]
      apply ih
      · have hn : (table_step t (TableOp.gc v)).next_entity_id = t.next_entity_id := by
          simp only [table_step]
          exact purge_stale_next v t
        omega
      · intro e'' hc
        apply hout e''
        apply rev_fold_unregister_some (t := t)
        simpa [table_step, purge_stale] using hc

/-! ## Cleanup-counter lemmas -/

theorem cleanup_frames (is_valid : Entity → Bool) (s : CleanupState)
    (h : s.frames_since_cleanup < CLEANUP_INTERVAL_FRAMES) :
    (cleanup_stale_entities is_valid s).frames_since_cleanup =
      (s.frames_since_cleanup + 1) % CLEANUP_INTERVAL_FRAMES := by
  have h60 : s.frames_since_cleanup < 60 := h
  simp only [cleanup_stale_entities, CLEANUP_INTERVAL_FRAMES]
  by_cases h2 : s.frames_since_cleanup + 1 < 60
  · rw [if_pos h2]
    dsimp only
    omega
  · rw [if_neg h2]
    dsimp only
    omega

theorem cleanup_iter_frames (is_valid : Entity → Bool) (n : Nat) (s : CleanupState)
    (h : s.frames_since_cleanup < CLEANUP_INTERVAL_FRAMES) :
    (cleanup_iter is_valid n s).frames_since_cleanup =
      (s.frames_since_cleanup + n) % CLEANUP_INTERVAL_FRAMES := by
  induction n generalizing s with
  | zero =>
    unfold CLEANUP_INTERVAL_FRAMES at *
    simp [cleanup_iter]
    omega
  | succ n ih =>
    rw [cleanup_iter]
    have h1 : (cleanup_stale_entities is_valid s).frames_since_cleanup =
        (s.frames_since_cleanup + 1) % CLEANUP_INTERVAL_FRAMES := cleanup_frames is_valid s h
    have h2 : (cleanup_stale_entities is_valid s).frames_since_cleanup <
        CLEANUP_INTERVAL_FRAMES := by
      rw [h1]
      unfold CLEANUP_INTERVAL_FRAMES
      omega
    rw [ih _ h2, h1]
    unfold CLEANUP_INTERVAL_FRAMES
    omega

/-! ## Frame-model lemmas -/

theorem collect_frame_cons (p : PluginM) (ps : List PluginM) :
    collect_frame_commands (p :: ps) =
      if p.has_on_frame then
        (p.frame_emitted.map (fun c => (p.id, c)) ++ (collect_frame_commands ps).1,
         (FrameAction.call_on_frame p.id ::
           (match p.frame_trap with
            | some error => [FrameAction.log_error p.id error]
            | none => [])) ++ (collect_frame_commands ps).2)
      else collect_frame_commands ps := rfl

theorem pairwise_le_const {α : Type} (l : List α) (n : Nat) :
    (l.map fun _ => n).Pairwise (· ≤ ·) := by
  induction l with
  | nil => simp
  | cons a l ih =>
    rw [List.map_cons, List.pairwise_cons]
    refine ⟨?_, ih⟩
    intro y hy
    rcases List.mem_map.mp hy with ⟨b, hb, rfl⟩
    exact le_refl n

theorem collect_frame_snd_call_phase (ps : List PluginM) :
    ∀ a ∈ (collect_frame_commands ps).2, a.is_call_phase = true := by
  induction ps with
  | nil => simp [collect_frame_commands]
  | cons p ps ih =>
    intro a ha
    rw [collect_frame_cons] at ha
    by_cases hf : p.has_on_frame = true
    · rw [if_pos hf] at ha
      dsimp only at ha
      rcases List.mem_append.mp ha with h | h
      · rcases List.mem_cons.mp h with rfl | h2
        · rfl
        · cases htrap : p.frame_trap with
          | some err =>
            rw [htrap] at h2
            rcases List.mem_singleton.mp h2 with rfl
            rfl
          | none =>
            rw [htrap] at h2
            simp at h2
      · exact ih a h
    · rw [if_neg hf] at ha
      exact ih a ha

theorem collect_frame_fst_eq (ps : List PluginM) :
    (collect_frame_commands ps).1 =
      ((ps.filter fun p => p.has_on_frame).map
        (fun p => p.frame_emitted.map fun c => (p.id, c))).flatten := by
  induction ps with
  | nil => rfl
  | cons p ps ih =>
    rw [collect_frame_cons]
    by_cases hf : p.has_on_frame = true
    · rw [if_pos hf]
      dsimp only
      rw [ih, List.filter_cons_of_pos hf, List.map_cons, List.flatten_cons]
    · rw [if_neg hf, ih, List.filter_cons_of_neg (by simpa using hf)]

theorem collect_fst_mem_ids (ps : List PluginM) :
    ∀ pc ∈ (collect_frame_commands ps).1, pc.1 ∈ ps.map PluginM.id := by
  induction ps with
  | nil => simp [collect_frame_commands]
  | cons p ps ih =>
    intro pc hpc
    rw [collect_frame_cons] at hpc
    rw [List.map_cons]
    by_cases hf : p.has_on_frame = true
    · rw [if_pos hf] at hpc
      dsimp only at hpc
      rcases List.mem_append.mp hpc with h | h
      · rcases List.mem_map.mp h with ⟨c, hc, rfl⟩
        exact List.mem_cons_self _ _
      · exact List.mem_cons_of_mem _ (ih pc h)
    · rw [if_neg hf] at hpc
      exact List.mem_cons_of_mem _ (ih pc hpc)

theorem collect_fst_pairwise (ps : List PluginM)
    (h : (ps.map PluginM.id).Pairwise (· < ·)) :
    ((collect_frame_commands ps).1.map Prod.fst).Pairwise (· ≤ ·) := by
  induction ps with
  | nil => simp [collect_frame_commands]
  | cons p ps ih =>
    rw [List.map_cons, List.pairwise_cons] at h
    obtain ⟨hlt, hp⟩ := h
    rw [collect_frame_cons]
    by_cases hf : p.has_on_frame = true
    · rw [if_pos hf]
      dsimp only
      rw [List.map_append, List.pairwise_append]
      refine ⟨?_, ih hp, ?_⟩
      · rw [List.map_map]
        exact pairwise_le_const p.frame_emitted p.id
      · intro x hx y hy
        rw [List.map_map] at hx
        rcases List.mem_map.mp hx with ⟨c, hc, rfl⟩
        rcases List.mem_map.mp hy with ⟨pc, hpc, rfl⟩
        exact le_of_lt (hlt pc.1 (collect_fst_mem_ids ps pc hpc))
    · rw [if_neg hf]
      exact ih hp

theorem mem_collect_frame (ps : List PluginM) (p : PluginM) (hmem : p ∈ ps)
    (hf : p.has_on_frame = true) (c : EngineCommand) (hc : c ∈ p.frame_emitted) :
    (p.id, c) ∈ (collect_frame_commands ps).1 := by
  induction ps with
  | nil => simp at hmem
  | cons q ps ih =>
    rw [collect_frame_cons]
    rcases List.mem_cons.mp hmem with rfl | hmem'
    · rw [if_pos hf]
      dsimp only
      exact List.mem_append.mpr (Or.inl (List.mem_map.mpr ⟨c, hc, rfl⟩))
    · by_cases hq : q.has_on_frame = true
      · rw [if_pos hq]
        dsimp only
        exact List.mem_append.mpr (Or.inr (ih hmem'))
      · rw [if_neg hq]
        exact ih hmem'

theorem mem_collect_init (ps : List PluginM) (p : PluginM) (hmem : p ∈ ps)
    (hi : p.has_on_init = true) (c : EngineCommand) (hc : c ∈ p.init_emitted) :
    (p.id, c) ∈ collect_init_commands ps := by
  induction ps with
  | nil => simp at hmem
  | cons q ps ih =>
    rw [show collect_init_commands (q :: ps) =
      (if q.has_on_init then q.init_emitted.map (fun c => (q.id, c)) else []) ++
        collect_init_commands ps from rfl]
    rcases List.mem_cons.mp hmem with rfl | hmem'
    · rw [if_pos hi]
      exact List.mem_append.mpr (Or.inl (List.mem_map.mpr ⟨c, hc, rfl⟩))
    · exact List.mem_append.mpr (Or.inr (ih hmem'))

theorem mem_dispatch_event_to_all (ps : List PluginM) (e : EngineEvent) (p : PluginM)
    (hp : p ∈ ps) : FrameAction.dispatch p.id e ∈ dispatch_event_to_all ps e :=
  List.mem_map.mpr ⟨p, hp, rfl⟩

theorem frame_event_actions_dispatch (plugins : List PluginM) (fi : FrameInput) :
    ∀ a ∈ frame_event_actions plugins fi, a.is_dispatch = true := by
  intro a ha
  unfold frame_event_actions at ha
  simp only [List.mem_append] at ha
  rcases ha with ((h | h) | h) | h
  · rcases List.mem_map.mp h with ⟨pe, hpe, rfl⟩
    rfl
  · rcases List.mem_flatten.mp h with ⟨l, hl, hal⟩
    rcases List.mem_map.mp hl with ⟨ev, hev, rfl⟩
    rcases List.mem_map.mp hal with ⟨p, hp, rfl⟩
    rfl
  · rcases List.mem_map.mp h with ⟨p, hp, rfl⟩
    rfl
  · by_cases hm : fi.mouse_position ≠ fi.last_mouse_position
    · rw [if_pos hm] at h
      rcases List.mem_map.mp h with ⟨p, hp, rfl⟩
      rfl
    · rw [if_neg hm] at h
      simp at h

/-! ## Codec lemmas -/

theorem varint_decode_encode (n : Nat) (rest : List Nat) :
    varint_decode (varint_encode n ++ rest) = some (n, rest) := by
  induction n using Nat.strong_induction_on with
  | _ n ih =>
    by_cases h : n < 128
    · rw [varint_encode, if_pos h]
      simp [varint_decode, h]
    · rw [varint_encode, if_neg h]
      have hlt : n / 128 < n := Nat.div_lt_self (by omega) (by omega)
      simp only [List.cons_append, varint_decode, List.append_eq]
      rw [if_neg (by omega), ih (n / 128) hlt]
      show some (n / 128 * 128 + (n % 128 + 128 - 128), rest) = some (n, rest)
      have he : n / 128 * 128 + (n % 128 + 128 - 128) = n := by omega
      rw [he]

theorem varint_decode_encode_nil (n : Nat) :
    varint_decode (varint_encode n) = some (n, []) := by
  simpa using varint_decode_encode n []

theorem f32_decode_encode {bits : Nat} (h : bits < 2 ^ 32) (rest : List Nat) :
    f32_decode (f32_encode bits ++ rest) = some (bits, rest) := by
  simp only [f32_encode, List.cons_append, List.nil_append, f32_decode]
  congr 2
  omega

theorem string_decode_encode (s rest : List Nat) :
    string_decode (string_encode s ++ rest) = some (s, rest) := by
  unfold string_encode string_decode
  rw [List.append_assoc, varint_decode_encode]
  simp [List.take_left, List.drop_left]

theorem string_decode_encode_nil (s : List Nat) :
    string_decode (string_encode s) = some (s, []) := by
  simpa using string_decode_encode s []

theorem enemy_type_decode_encode (t : EnemyType) (rest : List Nat) :
    enemy_type_decode (t.to_bytes ++ rest) = some (t, rest) := by
  cases t <;>
    simp [EnemyType.to_bytes, EnemyType.tag, enemy_type_decode, varint_decode_encode]

theorem enemy_type_decode_encode_nil (t : EnemyType) :
    enemy_type_decode t.to_bytes = some (t, []) := by
  simpa using enemy_type_decode_encode t []

theorem item_type_decode_encode (t : ItemType) (rest : List Nat) :
    item_type_decode (t.to_bytes ++ rest) = some (t, rest) := by
  cases t <;>
    simp [ItemType.to_bytes, ItemType.tag, item_type_decode, varint_decode_encode]

theorem item_type_decode_encode_nil (t : ItemType) :
    item_type_decode t.to_bytes = some (t, []) := by
  simpa using item_type_decode_encode t []

/-! ## Claim C1: the path sanitizer -/

/-- C1: for every guest-supplied path `p`, `sanitize_path p` returns `some q`
iff `p` is not absolute, no component of `p` is a parent-dir reference, a
root, or a platform prefix, the join of `p` under the configured plugins base
path canonicalizes via the filesystem to `q`, and `q` has the canonical base
path as a prefix; otherwise it returns `none`. -/
theorem sanitize_path_spec (fs : FileSys) (rt : RuntimePaths) (p q : RPath) :
    sanitize_path fs rt p = some q ↔
      p.is_absolute = false ∧
      p.components.any bad_component = false ∧
      fs.canonicalize (rt.plugins_base_path.join p) = some q ∧
      q.has_base rt.canonical_base_path = true := by
  unfold sanitize_path
  cases habs : p.is_absolute
  · cases hbad : p.components.any bad_component
    · cases hc : fs.canonicalize (rt.plugins_base_path.join p) with
      | none => simp [hc]
      | some cf =>
        cases hb : cf.has_base rt.canonical_base_path
        · simp only [Bool.false_eq_true, if_false, hc, hb, Bool.not_false, if_true]
          constructor
          · intro h
            exact absurd h (by simp)
          · rintro ⟨-, -, hq, hb'⟩
            obtain rfl : cf = q := by injection hq
            rw [hb] at hb'
            exact absurd hb' (by simp)
        · simp only [Bool.false_eq_true, if_false, hc, hb, Bool.not_true, if_false]
          constructor
          · intro h
            obtain rfl : cf = q := by injection h
            exact ⟨trivial, trivial, rfl, hb⟩
          · rintro ⟨-, -, hq, -⟩
            exact hq
    · simp
  · simp

/-! ## Claim C2: the `ReadFile` command arm -/

/-- C2: processing `ReadFile{path, request_id}` for plugin `pid`: if the path
fails sanitization, exactly one `FileError` with the same request id and the
error string `"Invalid path: access denied"` is unicast to `pid` and no
worker thread is spawned; if it sanitizes to `q`, exactly one worker (reading
`q`) is spawned and no event is dispatched at command-processing time. -/
theorem read_file_spec (fs : FileSys) (rt : RuntimePaths) (pid : PluginId)
    (p : RPath) (rid : Nat) :
    (sanitize_path fs rt p = none →
      process_read_file fs rt pid p rid =
        { events := [(pid, EngineEvent.FileError rid "Invalid path: access denied")]
          workers := [] }) ∧
    (∀ q, sanitize_path fs rt p = some q →
      process_read_file fs rt pid p rid = { events := [], workers := [q] }) := by
  constructor
  · intro h
    simp [process_read_file, h]
  · intro q h
    simp [process_read_file, h]

/-- Concrete run of C2: the traversal attempt `../etc/passwd` yields exactly
the access-denied `FileError` and spawns nothing, while `logo.png` spawns
exactly one worker and yields no event. -/
theorem read_file_spec_witness :
    process_read_file demoFS demoRT 1 ⟨[.parentDir, .normal "etc", .normal "passwd"]⟩ 9 =
      { events := [(1, EngineEvent.FileError 9 "Invalid path: access denied")]
        workers := [] } ∧
    process_read_file demoFS demoRT 1 demoLogoRel 42 =
      { events := [], workers := [demoLogoAbs] } :=
  ⟨(read_file_spec demoFS demoRT 1 ⟨[.parentDir, .normal "etc", .normal "passwd"]⟩ 9).1
      (by decide),
   (read_file_spec demoFS demoRT 1 demoLogoRel 42).2 demoLogoAbs (by decide)⟩

/-! ## Claim C3: the game codec round-trip -/

set_option maxHeartbeats 2000000 in
/-- C3: for every valid `GameCommand` `c` and valid `GameEvent` `e`,
`from_bytes (to_bytes c) = some c` and `from_bytes (to_bytes e) = some e`:
decoding the serialization of any valid command or event yields the original
value. -/
theorem game_codec_round_trip :
    (∀ c : GameCommand, c.wf → GameCommand.from_bytes c.to_bytes = some c) ∧
    (∀ e : GameEvent, e.wf → GameEvent.from_bytes e.to_bytes = some e) := by
  constructor
  · intro c h
    cases c with
    | SpawnEnemy et x y z rid =>
      obtain ⟨hx, hy, hz, -⟩ := h
      simp only [GameCommand.to_bytes, GameCommand.from_bytes, List.append_assoc,
        varint_decode_encode, Option.some_bind, enemy_type_decode_encode,
        f32_decode_encode hx, f32_decode_encode hy, f32_decode_encode hz,
        varint_decode_encode_nil]
    | DespawnEnemy id =>
      simp only [GameCommand.to_bytes, GameCommand.from_bytes, List.append_assoc,
        varint_decode_encode, Option.some_bind, varint_decode_encode_nil]
    | DamageEnemy id dmg =>
      simp only [GameCommand.to_bytes, GameCommand.from_bytes, List.append_assoc,
        varint_decode_encode, Option.some_bind, varint_decode_encode_nil]
    | SpawnItem it x y z rid =>
      obtain ⟨hx, hy, hz, -⟩ := h
      simp only [GameCommand.to_bytes, GameCommand.from_bytes, List.append_assoc,
        varint_decode_encode, Option.some_bind, item_type_decode_encode,
        f32_decode_encode hx, f32_decode_encode hy, f32_decode_encode hz,
        varint_decode_encode_nil]
    | GivePlayerItem it =>
      simp only [GameCommand.to_bytes, GameCommand.from_bytes, List.append_assoc,
        varint_decode_encode, Option.some_bind, item_type_decode_encode_nil]
    | SetPlayerHealth hp =>
      simp only [GameCommand.to_bytes, GameCommand.from_bytes, List.append_assoc,
        varint_decode_encode, Option.some_bind, varint_decode_encode_nil]
    | SetPlayerScore s =>
      simp only [GameCommand.to_bytes, GameCommand.from_bytes, List.append_assoc,
        varint_decode_encode, Option.some_bind, varint_decode_encode_nil]
    | TriggerGameEvent name =>
      simp only [GameCommand.to_bytes, GameCommand.from_bytes, List.append_assoc,
        varint_decode_encode, Option.some_bind, string_decode_encode_nil]
  · intro e h
    cases e with
    | EnemySpawned rid eid et =>
      simp only [GameEvent.to_bytes, GameEvent.from_bytes, List.append_assoc,
        varint_decode_encode, Option.some_bind, enemy_type_decode_encode_nil]
    | EnemyDied eid et =>
      simp only [GameEvent.to_bytes, GameEvent.from_bytes, List.append_assoc,
        varint_decode_encode, Option.some_bind, enemy_type_decode_encode_nil]
    | EnemyDamaged eid hp =>
      simp only [GameEvent.to_bytes, GameEvent.from_bytes, List.append_assoc,
        varint_decode_encode, Option.some_bind, varint_decode_encode_nil]
    | ItemSpawned rid iid it =>
      simp only [GameEvent.to_bytes, GameEvent.from_bytes, List.append_assoc,
        varint_decode_encode, Option.some_bind, item_type_decode_encode_nil]
    | ItemCollected iid it =>
      simp only [GameEvent.to_bytes, GameEvent.from_bytes, List.append_assoc,
        varint_decode_encode, Option.some_bind, item_type_decode_encode_nil]
    | PlayerHealthChanged hp mhp =>
      simp only [GameEvent.to_bytes, GameEvent.from_bytes, List.append_assoc,
        varint_decode_encode, Option.some_bind, varint_decode_encode_nil]
    | PlayerScoreChanged s =>
      simp only [GameEvent.to_bytes, GameEvent.from_bytes, List.append_assoc,
        varint_decode_encode, Option.some_bind, varint_decode_encode_nil]
    | PlayerDied =>
      simp only [GameEvent.to_bytes, GameEvent.from_bytes, varint_decode_encode_nil,
        Option.some_bind]
    | GameEventTriggered name =>
      simp only [GameEvent.to_bytes, GameEvent.from_bytes, List.append_assoc,
        varint_decode_encode, Option.some_bind, string_decode_encode_nil]
    | WaveStarted w =>
      simp only [GameEvent.to_bytes, GameEvent.from_bytes, List.append_assoc,
        varint_decode_encode, Option.some_bind, varint_decode_encode_nil]
    | WaveCompleted w =>
      simp only [GameEvent.to_bytes, GameEvent.from_bytes, List.append_assoc,
        varint_decode_encode, Option.some_bind, varint_decode_encode_nil]

/-- Concrete run of C3 on a command with `f32` payloads (the bit patterns of
`1.0` and `-1.0`) and on an event carrying a string. -/
theorem game_codec_round_trip_witness :
    GameCommand.from_bytes
        (GameCommand.to_bytes (.SpawnEnemy .Dragon 1065353216 0 3212836864 900)) =
      some (.SpawnEnemy .Dragon 1065353216 0 3212836864 900) ∧
    GameEvent.from_bytes (GameEvent.to_bytes (.GameEventTriggered [119, 97, 118, 101])) =
      some (.GameEventTriggered [119, 97, 118, 101]) :=
  ⟨game_codec_round_trip.1 (.SpawnEnemy .Dragon 1065353216 0 3212836864 900)
      (by unfold GameCommand.wf; decide),
   game_codec_round_trip.2 (.GameEventTriggered [119, 97, 118, 101])
      (by unfold GameEvent.wf; decide)⟩

/-! ## Claim C5: handle-table lookup -/

/-- C5: for every id returned by `register_entity e`, every subsequent
`get_entity id` returns `some e` as long as neither `unregister_entity id`
nor a cleanup pass has removed the mapping; after such a removal `get_entity
id` returns `none`. `register_entity` on an already-mapped entity returns
the existing id without touching the table. -/
theorem entity_handle_lookup (t : EntityTable) (h : TableInv t) :
    (∀ e, get_entity (register_entity t e).2 (register_entity t e).1 = some e) ∧
    (∀ id e ops, get_entity t id = some e → (∀ op ∈ ops, op_keeps id e op) →
      get_entity (apply_ops t ops) id = some e) ∧
    (∀ id, get_entity (unregister_entity t id) id = none) ∧
    (∀ id e is_valid, get_entity t id = some e → is_valid e = false →
      get_entity (purge_stale is_valid t) id = none) ∧
    (∀ e id0, afind e t.reverse_entity_map = some id0 → register_entity t e = (id0, t)) := by
  refine ⟨fun e => register_lookup t e h,
          fun id e ops hget hkeep => get_entity_apply_ops ops t id e h hget hkeep,
          fun id => by rw [get_entity_unregister]; simp,
          ?_,
          fun e id0 h0 => register_hit t e id0 h0⟩
  intro id e is_valid hget hval
  cases hp : get_entity (purge_stale is_valid t) id with
  | none => rfl
  | some e' =>
    obtain ⟨h1, h2⟩ := (get_entity_purge_stale is_valid t h.1 id e').mp hp
    rw [hget] at h1
    obtain rfl : e' = e := by injection h1 with hh; exact hh.symm
    rw [hval] at h2
    exact absurd h2 (by simp)

/-- Concrete run of C5: the handle `1 ↦ 10` survives a fresh registration, an
unrelated unregistration and a cleanup pass that keeps entity 10. -/
theorem entity_handle_lookup_witness :
    get_entity (apply_ops demoTable
      [TableOp.reg 20, TableOp.unreg 5, TableOp.gc (fun e => decide (e ≤ 50))]) 1 = some 10 :=
  (entity_handle_lookup demoTable (by decide)).2.1 1 10
    [TableOp.reg 20, TableOp.unreg 5, TableOp.gc (fun e => decide (e ≤ 50))]
    (by decide)
    (by
      intro op hop
      fin_cases hop
      · exact trivial
      · exact (by decide : (5 : Nat) ≠ 1)
      · show decide ((10 : Nat) ≤ 50) = true
        decide)

/-! ## Claim C6: ids are never reused -/

/-- C6: plugin-facing entity ids are allocated strictly monotonically and are
never reused: along any operation sequence the freshly allocated ids are
strictly increasing (so no id is ever issued twice), and an id that is
currently unregistered (it is below the allocation cursor but absent from the
reverse map, e.g. after `unregister_entity`) is never returned by any later
`register_entity` call — in particular it is never reissued for a different
entity. -/
theorem entity_id_never_reused (t : EntityTable) (ops : List TableOp) :
    (fresh_ids t ops).Pairwise (· < ·) ∧
    (∀ id, id < t.next_entity_id →
      (∀ e, afind e t.reverse_entity_map ≠ some id) →
      id ∉ reg_returns t ops) :=
  ⟨fresh_ids_pairwise ops t, fun id hlt hout => unregistered_not_reissued ops t id hlt hout⟩

/-- Concrete run of C6: after unregistering id 1, registering a new entity and
re-registering the old entity never hand out id 1 again. -/
theorem entity_id_never_reused_witness :
    1 ∉ reg_returns demoTableUnreg [TableOp.reg 30, TableOp.reg 10] :=
  (entity_id_never_reused demoTableUnreg [TableOp.reg 30, TableOp.reg 10]).2 1
    (by decide)
    (by
      intro e
      have hrev : demoTableUnreg.reverse_entity_map = [] := by decide
      rw [hrev]
      simp [afind])

/-! ## Claim C8: the stale-entity cleanup -/

/-- C8: the stale-entity purge runs exactly once every
`CLEANUP_INTERVAL_FRAMES` (60) calls (the i-th call purges iff `i` is a
multiple of 60); a non-triggering call only bumps the counter; a triggering
call resets the counter and unregisters exactly those ids whose mapped
entity fails `is_valid`, so that afterwards every remaining id maps to an
entity satisfying `is_valid`. -/
theorem cleanup_spec (is_valid : Entity → Bool) :
    (∀ s : CleanupState, s.frames_since_cleanup = 0 →
      ∀ i, does_purge (cleanup_iter is_valid i s) ↔
        (i + 1) % CLEANUP_INTERVAL_FRAMES = 0) ∧
    (∀ s : CleanupState, s.frames_since_cleanup + 1 < CLEANUP_INTERVAL_FRAMES →
      cleanup_stale_entities is_valid s =
        { s with frames_since_cleanup := s.frames_since_cleanup + 1 }) ∧
    (∀ s : CleanupState, CLEANUP_INTERVAL_FRAMES ≤ s.frames_since_cleanup + 1 →
      keysNodup s.table.entity_map →
      (cleanup_stale_entities is_valid s).frames_since_cleanup = 0 ∧
      ∀ id e,
        get_entity (cleanup_stale_entities is_valid s).table id = some e ↔
          (get_entity s.table id = some e ∧ is_valid e = true)) := by
  refine ⟨?_, ?_, ?_⟩
  · intro s h0 i
    have hfr : (cleanup_iter is_valid i s).frames_since_cleanup = i % 60 := by
      have hthis := cleanup_iter_frames is_valid i s (by rw [h0]; decide)
      rw [h0] at hthis
      simpa [CLEANUP_INTERVAL_FRAMES] using hthis
    unfold does_purge CLEANUP_INTERVAL_FRAMES
    rw [hfr]
    omega
  · intro s hlt
    simp only [cleanup_stale_entities]
    rw [if_pos hlt]
  · intro s hge hnd
    have hneg : ¬ (s.frames_since_cleanup + 1 < CLEANUP_INTERVAL_FRAMES) := by omega
    simp only [cleanup_stale_entities]
    rw [if_neg hneg]
    exact ⟨rfl, fun id e => get_entity_purge_stale is_valid s.table hnd id e⟩

/-- Concrete run of C8: from a fresh counter the 60th call is the one that
purges; on `demoCleanup` (counter 59) the call resets the counter, keeps the
handle of live entity 5 and drops the handle of stale entity 9. -/
theorem cleanup_spec_witness :
    (does_purge (cleanup_iter demoValid 59
        { table := demoCleanup.table, frames_since_cleanup := 0 }) ↔
      (59 + 1) % CLEANUP_INTERVAL_FRAMES = 0) ∧
    (cleanup_stale_entities demoValid demoCleanup).frames_since_cleanup = 0 ∧
    (get_entity (cleanup_stale_entities demoValid demoCleanup).table 2 = some 9 ↔
      (get_entity demoCleanup.table 2 = some 9 ∧ demoValid 9 = true)) :=
  ⟨(cleanup_spec demoValid).1 { table := demoCleanup.table, frames_since_cleanup := 0 } rfl 59,
   ((cleanup_spec demoValid).2.2 demoCleanup (by decide) (by unfold keysNodup; decide)).1,
   ((cleanup_spec demoValid).2.2 demoCleanup (by decide) (by unfold keysNodup; decide)).2 2 9⟩

/-! ## Claim C4: texture-id pre-allocation and the async texture result -/

/-- C4: for a `LoadTexture` whose path sanitizes, the texture id is allocated
synchronously at command-dispatch time: the spawned worker captures the
current `next_texture_id`, the counter is incremented, and no event is
dispatched. When the async result is later processed, on decode success the
runtime records `texture_id ↦ texture_name` and the insert action strictly
precedes the `TextureLoaded` dispatch in the action trace; on decode failure
it dispatches `AssetError` and leaves `texture_id_to_name` unchanged — the
pre-allocated id is never inserted. -/
theorem texture_pipeline_spec (fs : FileSys) (rt : RuntimePaths) (next pid rid : Nat)
    (p : RPath) :
    (∀ q, sanitize_path fs rt p = some q →
      process_load_texture fs rt next pid p rid =
        { events := []
          workers := [{ plugin_id := pid, request_id := rid, texture_name := p,
                        texture_id := next, safe_path := q }]
          next_texture_id := next + 1 }) ∧
    (∀ (m : List (Nat × RPath)) (r : TextureResult) rgba w h,
      r.result = Except.ok (rgba, w, h) →
      process_texture_result m r =
        (ainsert r.texture_id r.texture_name m,
         [TexAction.queue_world_load_texture r.texture_name rgba w h,
          TexAction.insert_texture_map r.texture_id r.texture_name,
          TexAction.dispatch r.plugin_id
            (EngineEvent.TextureLoaded r.request_id r.texture_id)])) ∧
    (∀ (m : List (Nat × RPath)) (r : TextureResult) err,
      r.result = Except.error err →
      process_texture_result m r =
        (m, [TexAction.dispatch r.plugin_id (EngineEvent.AssetError r.request_id err)])) := by
  refine ⟨?_, ?_, ?_⟩
  · intro q hq
    simp [process_load_texture, hq]
  · intro m r rgba w h hr
    simp [process_texture_result, hr]
  · intro m r err hr
    simp [process_texture_result, hr]

/-- Concrete run of C4: dispatching `LoadTexture{logo.png, 42}` allocates id 1
synchronously; the successful decode inserts `1 ↦ logo.png` before the
`TextureLoaded` dispatch; the failed decode leaves the map untouched. -/
theorem texture_pipeline_spec_witness :
    process_load_texture demoFS demoRT 1 1 demoLogoRel 42 =
      { events := []
        workers := [{ plugin_id := 1, request_id := 42, texture_name := demoLogoRel,
                      texture_id := 1, safe_path := demoLogoAbs }]
        next_texture_id := 2 } ∧
    process_texture_result [] demoTexResultOk =
      (ainsert 1 demoLogoRel [],
       [TexAction.queue_world_load_texture demoLogoRel [0, 0, 0, 255] 1 1,
        TexAction.insert_texture_map 1 demoLogoRel,
        TexAction.dispatch 1 (EngineEvent.TextureLoaded 42 1)]) ∧
    process_texture_result [(1, demoLogoRel)] demoTexResultErr =
      ([(1, demoLogoRel)],
       [TexAction.dispatch 1
          (EngineEvent.AssetError 43 "Failed to decode image: bad header")]) :=
  ⟨(texture_pipeline_spec demoFS demoRT 1 1 42 demoLogoRel).1 demoLogoAbs (by decide),
   (texture_pipeline_spec demoFS demoRT 1 1 42 demoLogoRel).2.1 [] demoTexResultOk
     [0, 0, 0, 255] 1 1 rfl,
   (texture_pipeline_spec demoFS demoRT 1 1 42 demoLogoRel).2.2 [(1, demoLogoRel)]
     demoTexResultErr "Failed to decode image: bad header" rfl⟩

/-! ## Claim C7: frame ordering -/

/-- C7: within a single `run_frame`, every event dispatch (async-derived,
queued input, `FrameStart`, `MouseMoved`) happens before any `on_frame` call,
and every command is processed only after all `on_frame` calls; broadcasts
reach every plugin; the processed command list is exactly the concatenation,
in plugin order, of each plugin's emitted commands in FIFO order — so with
plugin ids sorted (as the loader guarantees), commands are processed in
plugin-id order and FIFO within a plugin. -/
theorem run_frame_ordering (plugins : List PluginM) (fi : FrameInput)
    (hsort : (plugins.map PluginM.id).Pairwise (· < ·)) :
    run_frame_trace plugins fi =
      frame_event_actions plugins fi ++ (collect_frame_commands plugins).2 ++
        ((collect_frame_commands plugins).1.map fun pc =>
          FrameAction.process pc.1 pc.2) ∧
    (∀ a ∈ frame_event_actions plugins fi, a.is_dispatch = true) ∧
    (∀ a ∈ (collect_frame_commands plugins).2, a.is_call_phase = true) ∧
    (∀ p ∈ plugins,
      FrameAction.dispatch p.id (EngineEvent.FrameStart fi.delta_time fi.frame_count) ∈
        frame_event_actions plugins fi ∧
      (∀ ev ∈ fi.pending_input_events,
        FrameAction.dispatch p.id ev ∈ frame_event_actions plugins fi) ∧
      (fi.mouse_position ≠ fi.last_mouse_position →
        FrameAction.dispatch p.id
            (EngineEvent.MouseMoved fi.mouse_position.1 fi.mouse_position.2) ∈
          frame_event_actions plugins fi)) ∧
    (∀ pe ∈ fi.async_event_dispatches,
      FrameAction.dispatch pe.1 pe.2 ∈ frame_event_actions plugins fi) ∧
    (collect_frame_commands plugins).1 =
      ((plugins.filter fun p => p.has_on_frame).map
        (fun p => p.frame_emitted.map fun c => (p.id, c))).flatten ∧
    ((collect_frame_commands plugins).1.map Prod.fst).Pairwise (· ≤ ·) := by
  refine ⟨rfl, frame_event_actions_dispatch plugins fi,
    collect_frame_snd_call_phase plugins, ?_, ?_,
    collect_frame_fst_eq plugins, collect_fst_pairwise plugins hsort⟩
  · intro p hp
    refine ⟨?_, ?_, ?_⟩
    · unfold frame_event_actions
      simp only [List.mem_append]
      exact Or.inl (Or.inr (mem_dispatch_event_to_all plugins _ p hp))
    · intro ev hev
      unfold frame_event_actions
      simp only [List.mem_append]
      refine Or.inl (Or.inl (Or.inr ?_))
      exact List.mem_flatten.mpr
        ⟨dispatch_event_to_all plugins ev, List.mem_map.mpr ⟨ev, hev, rfl⟩,
         mem_dispatch_event_to_all plugins ev p hp⟩
    · intro hm
      unfold frame_event_actions
      simp only [List.mem_append]
      refine Or.inr ?_
      rw [if_pos hm]
      exact mem_dispatch_event_to_all plugins _ p hp
  · intro pe hpe
    unfold frame_event_actions
    simp only [List.mem_append]
    exact Or.inl (Or.inl (Or.inl (List.mem_map.mpr ⟨pe, hpe, rfl⟩)))

/-- Concrete run of C7: with two plugins of ids 1 < 2 the processed command
list is ordered by plugin id. -/
theorem run_frame_ordering_witness :
    ((collect_frame_commands [demoPlugin1, demoPlugin2]).1.map Prod.fst).Pairwise
      (· ≤ ·) :=
  (run_frame_ordering [demoPlugin1, demoPlugin2] demoFrameInput
    (by decide)).2.2.2.2.2.2

/-! ## Claim C9: SetEntityRotation -/

/-- C9 as stated is false: the wire components are interpreted scalar-last,
but the rotation is *not* normalized. For the non-unit input
`(x, y, z, w) = (0, 0, 0, 2)` on the known entity `1 ↦ 10`, the stored
rotation is `⟨2, 0, 0, 0⟩` with squared norm 4 — not a unit quaternion. -/
theorem set_entity_rotation_not_normalized :
    afind 10 (set_entity_rotation demoWorld demoTable 1 0 0 0 2) =
      some { demoTransform with rotation := ⟨2, 0, 0, 0⟩ } ∧
    ¬ Quat.normSq ⟨2, 0, 0, 0⟩ = 1 := by
  constructor
  · rfl
  · norm_num [Quat.normSq]

/-- C9 (amended): for every `SetEntityRotation{entity_id, x, y, z, w}` on a
known entity with a local transform, the components are interpreted
scalar-last on the wire — the stored quaternion has vector part `(x, y, z)`
and scalar `w` — and the quaternion is stored exactly as supplied, without
normalization (it is a unit quaternion only when the guest supplies one). -/
theorem set_entity_rotation_spec (world : List (Entity × Transform3D)) (t : EntityTable)
    (entity_id : Nat) (x y z w : ℚ) (entity : Entity) (tr : Transform3D)
    (hent : get_entity t entity_id = some entity) (htr : afind entity world = some tr) :
    afind entity (set_entity_rotation world t entity_id x y z w) =
      some { tr with rotation := Quat.new w x y z } ∧
    (Quat.new w x y z).i = x ∧ (Quat.new w x y z).j = y ∧
    (Quat.new w x y z).k = z ∧ (Quat.new w x y z).w = w := by
  simp only [set_entity_rotation, hent, htr]
  exact ⟨afind_ainsert_self _ _ _, rfl, rfl, rfl, rfl⟩

/-- Concrete run of the amended C9 on the wire quaternion
`(x, y, z, w) = (1/2, 0, 0, 1/2)`. -/
theorem set_entity_rotation_spec_witness :
    afind 10 (set_entity_rotation demoWorld demoTable 1 (1 / 2) 0 0 (1 / 2)) =
      some { demoTransform with rotation := Quat.new (1 / 2) (1 / 2) 0 0 } ∧
    (Quat.new (1 / 2) (1 / 2) 0 0).i = 1 / 2 ∧
    (Quat.new (1 / 2) (1 / 2) 0 0).j = 0 ∧
    (Quat.new (1 / 2) (1 / 2) 0 0).k = 0 ∧
    (Quat.new (1 / 2) (1 / 2) 0 0).w = 1 / 2 :=
  set_entity_rotation_spec demoWorld demoTable 1 (1 / 2) 0 0 (1 / 2) 10 demoTransform
    rfl rfl

/-! ## Claim C10: a trap does not discard already-pushed commands -/

/-- C10: if a plugin's `on_init` or `on_frame` call returns an error (the
guest traps), every command that plugin pushed into its pending-command
buffer before the trap is still drained into the collected command list and
processed in the same init/frame cycle. -/
theorem trap_commands_still_drained (plugins : List PluginM) (p : PluginM)
    (hmem : p ∈ plugins) :
    (∀ err, p.frame_trap = some err → p.has_on_frame = true →
      ∀ c ∈ p.frame_emitted,
        (p.id, c) ∈ (collect_frame_commands plugins).1 ∧
        ∀ fi, FrameAction.process p.id c ∈ run_frame_trace plugins fi) ∧
    (∀ err, p.init_trap = some err → p.has_on_init = true →
      ∀ c ∈ p.init_emitted,
        (p.id, c) ∈ collect_init_commands plugins ∧
        FrameAction.process p.id c ∈ call_on_init_trace plugins) := by
  constructor
  · intro err htrap hf c hc
    have hm := mem_collect_frame plugins p hmem hf c hc
    refine ⟨hm, ?_⟩
    intro fi
    unfold run_frame_trace
    simp only [List.mem_append]
    exact Or.inr (List.mem_map.mpr ⟨(p.id, c), hm, rfl⟩)
  · intro err htrap hi c hc
    have hm := mem_collect_init plugins p hmem hi c hc
    exact ⟨hm, List.mem_map.mpr ⟨(p.id, c), hm, rfl⟩⟩

/-- Concrete run of C10: a plugin that traps in both lifecycle calls still has
its pre-trap commands collected. -/
theorem trap_commands_still_drained_witness :
    (1, EngineCommand.DespawnEntity 1) ∈ (collect_frame_commands [demoTrapPlugin]).1 ∧
    (1, EngineCommand.Log "hello") ∈ collect_init_commands [demoTrapPlugin] :=
  ⟨((trap_commands_still_drained [demoTrapPlugin] demoTrapPlugin
        (List.mem_cons_self _ _)).1 "wasm trap: unreachable" rfl rfl
      (EngineCommand.DespawnEntity 1) (List.mem_cons_self _ _)).1,
   ((trap_commands_still_drained [demoTrapPlugin] demoTrapPlugin
        (List.mem_cons_self _ _)).2 "wasm trap: unreachable" rfl rfl
      (EngineCommand.Log "hello") (List.mem_cons_self _ _)).1⟩

end Nightshade
